import Mathlib

/-!
# Verification of the excel-extraction front-end (`app.py`)

A shallow embedding of the pure, decidable core of `app.py`:

* `_parse_eparse_output` — line scanning of the external tool's text output
  (Python strings are modelled as `List Char`; the Python `set` is tracked by
  its member list accumulated in first-insertion order — a canonical
  representative of the set's contents, since set membership is by string
  equality — while the program-visible order of the final `list(...)`
  conversion is a CPython hash-iteration order with no guarantee at all, so
  it is modelled relationally by `pyListOfSet`: any ordering of the members
  is a possible result; a raised `IndexError` is modelled by `Option.none`);
* `format_summary` — the Markdown summary template;
* `create_visualizations` — the chart-selection logic (charts are modelled by
  a small inductive datatype recording kind, title, and data; the plotting
  library itself is opaque rendering);
* `extract_from_excel`, `_extract_from_database`, `process_excel_file` — the
  subprocess error handling, with the two external invocations supplied as
  explicit `ProcResult` inputs (exit code, stdout, stderr) and Python
  exceptions modelled by an explicit exception type threaded through `Except`.

Python `str.strip()` / `str.split()` whitespace is modelled by the ASCII
whitespace characters (space, tab, newline, carriage return, vertical tab,
form feed), which is exact on the ASCII text the external tool produces.
-/

/-- The ASCII whitespace characters stripped by Python's `str.strip()` and
used as separators by no-argument `str.split()`. -/
def isPySpace (c : Char) : Bool :=
  c = ' ' || c = '\t' || c = '\n' || c = '\r' || c = Char.ofNat 11 || c = Char.ofNat 12

/-- Python `s.strip()`: remove leading and trailing whitespace. -/
def pyStrip (s : List Char) : List Char :=
  ((s.dropWhile isPySpace).reverse.dropWhile isPySpace).reverse

/-- Python `s.split('\n')`: split at every newline, keeping empty pieces;
the empty string yields one empty piece. -/
def splitNl : List Char → List (List Char)
  | [] => [[]]
  | c :: rest =>
    if c = '\n' then [] :: splitNl rest
    else
      match splitNl rest with
      | [] => [[c]]
      | piece :: pieces => (c :: piece) :: pieces

/-- Python `s.startswith(pat)`: `pat` begins the string `s`. -/
def listStartsWith : List Char → List Char → Bool
  | [], _ => true
  | _ :: _, [] => false
  | p :: ps, c :: cs => p = c && listStartsWith ps cs

/-- Python `pat in s`: `pat` occurs as a contiguous substring of `s`. -/
def containsSub (pat : List Char) : List Char → Bool
  | [] => listStartsWith pat []
  | c :: rest => listStartsWith pat (c :: rest) || containsSub pat rest

/-- The suffix of `s` after the last occurrence of the separator `h :: t`
under Python's left-to-right non-overlapping scan, or `none` when the
separator does not occur. The scan steps past a whole match, so each
recursive call shortens the string; `fuel` (initially the string's length)
makes the recursion structural without changing the result. -/
def splitLastPieceAux (h : Char) (t : List Char) : Nat → List Char → Option (List Char)
  | 0, _ => none
  | _ + 1, [] => none
  | fuel + 1, c :: rest =>
    if listStartsWith (h :: t) (c :: rest) then
      let tail := rest.drop t.length
      some ((splitLastPieceAux h t fuel tail).getD tail)
    else
      splitLastPieceAux h t fuel rest

/-- Python `s.split(sep)[-1]` for a non-empty separator `sep`: the suffix
after the last occurrence of `sep`, or all of `s` when `sep` does not occur.
(Python raises `ValueError` on an empty separator; the code only ever uses
the non-empty separators `'sheet:'` and `'c_header:'`.) -/
def splitLastPiece (sep s : List Char) : List Char :=
  match sep with
  | [] => s
  | h :: t => (splitLastPieceAux h t s.length s).getD s

/-- Worker for no-argument `s.split()`: `cur` holds the characters of the
token in progress, in reverse. -/
def pySplitWsAux (cur : List Char) : List Char → List (List Char)
  | [] => if cur.isEmpty then [] else [cur.reverse]
  | c :: rest =>
    if isPySpace c then
      if cur.isEmpty then pySplitWsAux [] rest
      else cur.reverse :: pySplitWsAux [] rest
    else pySplitWsAux (c :: cur) rest

/-- Python no-argument `s.split()`: the maximal runs of non-whitespace
characters, in order; no empty pieces are produced. -/
def pySplitWs (s : List Char) : List (List Char) :=
  pySplitWsAux [] s

/-- The separator marker beginning lines that are not counted. -/
def eqMarker : List Char := "===".toList

/-- The sheet-name marker scanned for by `_parse_eparse_output`. -/
def sheetMarker : List Char := "sheet:".toList

/-- The column-header marker scanned for by `_parse_eparse_output`. -/
def colMarker : List Char := "c_header:".toList

/-- The dictionary assembled by `_parse_eparse_output`: the `tables` list
(initialised empty and never filled), the `sheets` and `columns` sets
(each tracked by its duplicate-free member list in canonical
first-insertion order; the unspecified order of the final `list(...)`
conversion is modelled separately by `pyListOfSet`), and the `total_rows`
counter. -/
structure ParseData where
  tables : List (List Char)
  sheets : List (List Char)
  columns : List (List Char)
  total_rows : Nat
  deriving Repr, DecidableEq

/-- The initial dictionary: empty tables, sheets, and columns, zero rows. -/
def initData : ParseData := ⟨[], [], [], 0⟩

/-- Python `set.add`: insert `x` unless an equal string is already present.
The list stays duplicate-free and tracks exactly the set's members; its
first-insertion order is only a canonical representative chosen by the
model — CPython stores the set in a hash table and promises no order — so
no theorem may read an ordering guarantee off this list. The order of the
program-visible `list(...)` conversion is modelled by `pyListOfSet`. -/
def insertSet (l : List (List Char)) (x : List Char) : List (List Char) :=
  if x ∈ l then l else l ++ [x]

/-- The possible results of CPython `list(s)` for a set `s` whose members
are the duplicate-free list `members`: the enumeration visits each member
exactly once in an unspecified, hash-randomized order, so exactly the
reorderings (permutations) of `members` are possible outputs. -/
def pyListOfSet (members l : List (List Char)) : Prop :=
  List.Perm l members

/-- The `if 'sheet:' in line` block of the loop body: extract
`line.split('sheet:')[-1].split()[0]` and add it to the sheets set; `none`
models the `IndexError` raised by `[0]` when no token follows the marker. -/
def sheetStep (d : ParseData) (line : List Char) : Option ParseData :=
  if containsSub sheetMarker line then
    match (pySplitWs (splitLastPiece sheetMarker line)).head? with
    | none => none
    | some sheet_name => some { d with sheets := insertSet d.sheets sheet_name }
  else some d

/-- The `if 'c_header:' in line` block of the loop body: extract
`line.split('c_header:')[-1].split()[0]` and add it to the columns set;
`none` models the `IndexError` raised by `[0]` when no token follows the
marker. -/
def colStep (d : ParseData) (line : List Char) : Option ParseData :=
  if containsSub colMarker line then
    match (pySplitWs (splitLastPiece colMarker line)).head? with
    | none => none
    | some col_name => some { d with columns := insertSet d.columns col_name }
  else some d

/-- The body of the `for line in lines` loop of `_parse_eparse_output` on a
single line: skip blank lines and lines starting with `===`; otherwise count
the line and run the two marker blocks in order (a raised `IndexError`
aborts the iteration, so a failed sheet extraction skips the column block). -/
def scanLine (d : ParseData) (line : List Char) : Option ParseData :=
  if pyStrip line ≠ [] ∧ ¬ listStartsWith eqMarker line then
    match sheetStep { d with total_rows := d.total_rows + 1 } line with
    | none => none
    | some d2 => colStep d2 line
  else some d

/-- The `for` loop of `_parse_eparse_output` over the list of lines; `none`
models an uncaught `IndexError` aborting the loop. -/
def parseLines (d : ParseData) : List (List Char) → Option ParseData
  | [] => some d
  | line :: rest =>
    match scanLine d line with
    | none => none
    | some d1 => parseLines d1 rest

/-- `ExcelExtractor._parse_eparse_output`: strip the whole output, split it
on newlines, and scan every line; `none` models a raised `IndexError`. -/
def parse_eparse_output (output : List Char) : Option ParseData :=
  parseLines initData (splitNl (pyStrip output))

/-! ## The summary template (`format_summary`) -/

/-- `format_summary`: the fixed Markdown template filled with the row count,
the sheet list, and the column list (via `data.get(...)` with defaults).
Within a success dictionary these are the only keys read. -/
def format_summary (d : ParseData) : String :=
  "\n## Excel Data Extraction Summary\n\n### 📊 Data Overview\n- **Total Data Points**: "
    ++ toString d.total_rows
    ++ "\n- **Number of Sheets**: " ++ toString d.sheets.length
    ++ "\n- **Number of Columns**: " ++ toString d.columns.length
    ++ "\n\n### 📋 Sheets Found\n"
    ++ String.intercalate "\n" (d.sheets.map (fun sheet => "- " ++ String.mk sheet))
    ++ "\n\n### 🏷️ Columns Identified\n"
    ++ String.intercalate "\n" (d.columns.map (fun col => "- " ++ String.mk col))
    ++ "\n\n### 🔍 Extraction Details\nThe data has been successfully extracted and chunked for analysis. \nEach data point maintains its relationship with headers and sheet information.\n\n### 💡 Next Steps\n- Use the visualizations below to explore the data structure\n- Query specific data points using the extracted information\n- Export data for further analysis in other tools\n"

/-! ## Charts (`create_visualizations`) -/

/-- A rendered chart, keeping the data the code puts into each figure:
a gauge indicator, a bar chart, a bare figure carrying a text annotation
(the "no data available" placeholders), or a two-column table.
Pixel-level layout and the plotting library are opaque rendering. -/
inductive Chart where
  | gauge (title : String) (value : Nat)
  | bar (title : String) (xs : List String) (ys : List Nat)
  | note (title : String) (text : String)
  | table (title : String) (metrics : List String) (values : List Nat)
  deriving Repr, DecidableEq

/-- `create_visualizations`: the four figures built from the extracted data.
An empty (hence falsy) sheet or column list selects the annotated
placeholder figure instead of a bar chart. -/
def create_visualizations (d : ParseData) : List Chart :=
  let fig1 := Chart.gauge "Data Overview" d.total_rows
  let fig2 :=
    if !d.sheets.isEmpty then
      Chart.bar "Sheets Found" (d.sheets.map (fun s => String.mk s))
        (List.replicate d.sheets.length d.sheets.length)
    else
      Chart.note "Sheets Found" "No sheet data available"
  let fig3 :=
    if !d.columns.isEmpty then
      Chart.bar "Columns Found" (d.columns.map (fun c => String.mk c))
        (List.replicate d.columns.length d.columns.length)
    else
      Chart.note "Columns Found" "No column data available"
  let fig4 := Chart.table "Data Summary" ["Total Rows", "Sheets", "Columns"]
    [d.total_rows, d.sheets.length, d.columns.length]
  [fig1, fig2, fig3, fig4]

/-! ## Subprocess layer and error handling -/

/-- The observable outcome of one external `subprocess.run` invocation. -/
structure ProcResult where
  returncode : Nat
  stdout : List Char
  stderr : List Char
  deriving Repr, DecidableEq

/-- The Python exceptions that can arise in the extraction pipeline:
`subprocess.CalledProcessError` (carrying the failed process's stderr) from
a `check=True` run, and the `IndexError` raised by `.split()[0]` in
`_parse_eparse_output`. -/
inductive PyExn where
  | calledProcessError (stderr : List Char)
  | indexError
  deriving Repr, DecidableEq

/-- Python `str(e)` for the exceptions modelled here. (`str` of an
`IndexError` from `list[0]` is exactly "list index out of range"; the
`calledProcessError` case is unreachable in the functions below because a
dedicated handler always catches it first.) -/
def strOfExn : PyExn → List Char
  | .calledProcessError _ => "Command returned non-zero exit status".toList
  | .indexError => "list index out of range".toList

/-- `subprocess.run(..., check=True)`: a non-zero exit raises
`CalledProcessError`, which carries the captured stderr. -/
def subprocessRunChecked (r : ProcResult) : Except PyExn ProcResult :=
  if r.returncode = 0 then .ok r else .error (.calledProcessError r.stderr)

/-- The dictionary returned by `_extract_from_database`: either the parsed
data or an `error`-keyed dictionary. -/
inductive DbDict where
  | data (d : ParseData)
  | errorDict (msg : List Char)
  deriving Repr, DecidableEq

/-- `ExcelExtractor._extract_from_database`, as a function of the query
invocation's outcome: run the query with `check=True` and parse its stdout.
`except CalledProcessError` yields the `Database query error:` dictionary;
any other exception (the parser's `IndexError`) propagates. -/
def extract_from_database (queryRes : ProcResult) : Except PyExn DbDict :=
  match subprocessRunChecked queryRes with
  | .error (PyExn.calledProcessError st) =>
      .ok (.errorDict ("Database query error: ".toList ++ st))
  | .error e => .error e
  | .ok r =>
      match parse_eparse_output r.stdout with
      | some d => .ok (.data d)
      | none => .error PyExn.indexError

/-- The dictionary returned by `ExcelExtractor.extract_from_excel`: either
an `error`-keyed dictionary or the success dictionary wrapping the data
returned by `_extract_from_database`. -/
inductive ExtractResult where
  | errorDict (msg : List Char)
  | successDict (data : DbDict) (message : List Char)
  deriving Repr, DecidableEq

/-- `ExcelExtractor.extract_from_excel`, as a function of the parse
invocation's outcome, whether the database-file glob came back empty, and
the query invocation's outcome. `except CalledProcessError` yields the
`eparse error:` dictionary, `except Exception` the `General error:`
dictionary; note that a query failure is wrapped by
`_extract_from_database` into the *data* of a success dictionary. -/
def extract_from_excel (parseRes : ProcResult) (dbFilesEmpty : Bool)
    (queryRes : ProcResult) : ExtractResult :=
  let body : Except PyExn ExtractResult :=
    match subprocessRunChecked parseRes with
    | .error e => .error e
    | .ok _ =>
      if dbFilesEmpty then .ok (.errorDict "No database files created".toList)
      else
        match extract_from_database queryRes with
        | .error e => .error e
        | .ok d => .ok (.successDict d "Data extracted successfully".toList)
  match body with
  | .ok v => v
  | .error (PyExn.calledProcessError st) => .errorDict ("eparse error: ".toList ++ st)
  | .error e => .errorDict ("General error: ".toList ++ strOfExn e)

/-- The environment a request runs in: the outcomes of the two external
invocations and of the database-file glob. -/
structure Env where
  parseRes : ProcResult
  dbFilesEmpty : Bool
  queryRes : ProcResult
  deriving Repr, DecidableEq

/-- Reading the `data` dictionary through `data.get(key, default)`, as
`create_visualizations` and `format_summary` do: on the `error`-keyed
dictionary every read yields its default (`0` or an empty, falsy value). -/
def dataOfDbDict : DbDict → ParseData
  | .data d => d
  | .errorDict _ => initData

/-- The tuple returned by `process_excel_file`: the Markdown text and the
four chart outputs. -/
structure AppOutput where
  text : String
  chart1 : Option Chart
  chart2 : Option Chart
  chart3 : Option Chart
  chart4 : Option Chart
  deriving Repr, DecidableEq

/-- `process_excel_file`, the top-level request handler: `None` input gets
the fixed message; an `error`-keyed extraction result gets `Error: ...`;
otherwise the summary text and the four charts are produced. -/
def process_excel_file (file : Option String) (env : Env) : AppOutput :=
  match file with
  | none => ⟨"Please upload an Excel file.", none, none, none, none⟩
  | some _ =>
    match extract_from_excel env.parseRes env.dbFilesEmpty env.queryRes with
    | .errorDict msg => ⟨"Error: " ++ String.mk msg, none, none, none, none⟩
    | .successDict dbd _ =>
      let d := dataOfDbDict dbd
      let charts := create_visualizations d
      ⟨format_summary d, charts[0]?, charts[1]?, charts[2]?, charts[3]?⟩

/-! ## Helper lemmas -/

theorem listStartsWith_self (s : List Char) : listStartsWith s s = true := by
  induction s with
  | nil => rfl
  | cons c rest ih => simp [listStartsWith, ih]

theorem containsSub_append_self (pre s : List Char) :
    containsSub s (pre ++ s) = true := by
  induction pre with
  | nil =>
    cases s with
    | nil => rfl
    | cons c rest => simp [containsSub, listStartsWith_self]
  | cons p ps ih =>
    simp [containsSub, ih]

theorem pyStrip_eq_nil_iff (s : List Char) :
    pyStrip s = [] ↔ ∀ c ∈ s, isPySpace c := by
  unfold pyStrip
  rw [List.reverse_eq_nil_iff, List.dropWhile_eq_nil_iff]
  simp only [List.mem_reverse]
  constructor
  · intro h c hc
    rcases List.mem_append.mp
        ((List.takeWhile_append_dropWhile (p := isPySpace) (l := s)) ▸ hc) with h1 | h1
    · exact List.mem_takeWhile_imp h1
    · exact h c h1
  · intro h c hc
    exact h c (List.dropWhile_sublist isPySpace |>.subset hc)

theorem pySplitWsAux_nil_of_all_space (s : List Char)
    (h : ∀ c ∈ s, isPySpace c) : pySplitWsAux [] s = [] := by
  induction s with
  | nil => rfl
  | cons c rest ih =>
    have hc : isPySpace c := h c (List.mem_cons_self c rest)
    simp only [pySplitWsAux, hc, if_true, List.isEmpty_nil]
    exact ih (fun x hx => h x (List.mem_cons_of_mem c hx))

theorem pySplitWs_nil_of_all_space (s : List Char)
    (h : ∀ c ∈ s, isPySpace c) : pySplitWs s = [] :=
  pySplitWsAux_nil_of_all_space s h

theorem sheetStep_preserves {d d' : ParseData} {line : List Char}
    (h : sheetStep d line = some d') :
    d'.total_rows = d.total_rows ∧ d'.columns = d.columns ∧ d'.tables = d.tables := by
  unfold sheetStep at h
  split at h
  · split at h
    · exact absurd h (by simp)
    · cases h
      exact ⟨rfl, rfl, rfl⟩
  · cases h
    exact ⟨rfl, rfl, rfl⟩

theorem colStep_preserves {d d' : ParseData} {line : List Char}
    (h : colStep d line = some d') :
    d'.total_rows = d.total_rows ∧ d'.sheets = d.sheets ∧ d'.tables = d.tables := by
  unfold colStep at h
  split at h
  · split at h
    · exact absurd h (by simp)
    · cases h
      exact ⟨rfl, rfl, rfl⟩
  · cases h
    exact ⟨rfl, rfl, rfl⟩


/-- A line the loop counts: it has a non-whitespace character (so `strip()`
is truthy) and does not start with the `===` separator marker. -/
def specCountedLine (line : List Char) : Bool :=
  line.any (fun c => !isPySpace c) && !listStartsWith eqMarker line

theorem specCountedLine_iff (line : List Char) :
    specCountedLine line = true ↔
      (pyStrip line ≠ [] ∧ ¬ listStartsWith eqMarker line) := by
  unfold specCountedLine
  rw [Bool.and_eq_true, List.any_eq_true]
  constructor
  · rintro ⟨⟨c, hc, hns⟩, hsep⟩
    refine ⟨fun hnil => ?_, by simpa using hsep⟩
    have hsp := (pyStrip_eq_nil_iff line).mp hnil c hc
    simp [hsp] at hns
  · rintro ⟨hnil, hsep⟩
    refine ⟨?_, by simpa using hsep⟩
    by_contra hall
    push_neg at hall
    apply hnil
    rw [pyStrip_eq_nil_iff]
    intro c hc
    simpa using hall c hc

theorem scanLine_not_counted {d : ParseData} {line : List Char}
    (h : ¬ (pyStrip line ≠ [] ∧ ¬ listStartsWith eqMarker line)) :
    scanLine d line = some d := by
  unfold scanLine
  rw [if_neg h]

theorem scanLine_total_rows {d d' : ParseData} {line : List Char}
    (h : scanLine d line = some d') :
    d'.total_rows = d.total_rows + (if specCountedLine line then 1 else 0) := by
  unfold scanLine at h
  split at h
  · rename_i hc
    rw [if_pos ((specCountedLine_iff line).mpr hc)]
    cases hs : sheetStep { d with total_rows := d.total_rows + 1 } line with
    | none => rw [hs] at h; cases h
    | some d2 =>
      rw [hs] at h
      have h1 := (sheetStep_preserves hs).1
      have h2 := (colStep_preserves h).1
      simp only [h2, h1]
  · rename_i hc
    rw [if_neg (by simpa [specCountedLine_iff] using hc)]
    cases h
    rfl

/-- The sheet name the loop body extracts from a line, when the line is
counted and carries the `sheet:` marker. -/
def sheetNameOfLine (line : List Char) : Option (List Char) :=
  if (pyStrip line ≠ [] ∧ ¬ listStartsWith eqMarker line) ∧ containsSub sheetMarker line then
    (pySplitWs (splitLastPiece sheetMarker line)).head?
  else none

/-- The column name the loop body extracts from a line, when the line is
counted and carries the `c_header:` marker. -/
def colNameOfLine (line : List Char) : Option (List Char) :=
  if (pyStrip line ≠ [] ∧ ¬ listStartsWith eqMarker line) ∧ containsSub colMarker line then
    (pySplitWs (splitLastPiece colMarker line)).head?
  else none

theorem scanLine_sheets {d d' : ParseData} {line : List Char}
    (h : scanLine d line = some d') :
    d'.sheets = (sheetNameOfLine line).elim d.sheets (insertSet d.sheets) := by
  unfold scanLine at h
  split at h
  · rename_i hc
    cases hs : sheetStep { d with total_rows := d.total_rows + 1 } line with
    | none => rw [hs] at h; cases h
    | some d2 =>
      rw [hs] at h
      have hcol := (colStep_preserves h).2.1
      unfold sheetStep at hs
      unfold sheetNameOfLine
      split at hs
      · rename_i hmark
        rw [if_pos ⟨hc, hmark⟩]
        cases hn : (pySplitWs (splitLastPiece sheetMarker line)).head? with
        | none => rw [hn] at hs; cases hs
        | some n =>
          rw [hn] at hs
          cases hs
          simpa [Option.elim] using hcol
      · rename_i hmark
        rw [if_neg (fun hx => hmark hx.2)]
        cases hs
        simpa [Option.elim] using hcol
  · rename_i hc
    cases h
    unfold sheetNameOfLine
    rw [if_neg (fun hx => hc hx.1)]
    rfl

theorem scanLine_columns {d d' : ParseData} {line : List Char}
    (h : scanLine d line = some d') :
    d'.columns = (colNameOfLine line).elim d.columns (insertSet d.columns) := by
  unfold scanLine at h
  split at h
  · rename_i hc
    cases hs : sheetStep { d with total_rows := d.total_rows + 1 } line with
    | none => rw [hs] at h; cases h
    | some d2 =>
      rw [hs] at h
      have hsheet := (sheetStep_preserves hs).2.1
      change colStep d2 line = some d' at h
      unfold colStep at h
      unfold colNameOfLine
      split at h
      · rename_i hmark
        rw [if_pos ⟨hc, hmark⟩]
        cases hn : (pySplitWs (splitLastPiece colMarker line)).head? with
        | none => rw [hn] at h; cases h
        | some n =>
          rw [hn] at h
          cases h
          simp [Option.elim, hsheet]
      · rename_i hmark
        rw [if_neg (fun hx => hmark hx.2)]
        cases h
        simpa [Option.elim] using hsheet
  · rename_i hc
    cases h
    unfold colNameOfLine
    rw [if_neg (fun hx => hc hx.1)]
    rfl

theorem scanLine_tables {d d' : ParseData} {line : List Char}
    (h : scanLine d line = some d') : d'.tables = d.tables := by
  unfold scanLine at h
  split at h
  · cases hs : sheetStep { d with total_rows := d.total_rows + 1 } line with
    | none => rw [hs] at h; cases h
    | some d2 =>
      rw [hs] at h
      rw [(colStep_preserves h).2.2, (sheetStep_preserves hs).2.2]
  · cases h
    rfl

theorem parseLines_total_rows :
    ∀ (l : List (List Char)) (d0 d' : ParseData),
      parseLines d0 l = some d' →
      d'.total_rows = d0.total_rows + (l.filter specCountedLine).length := by
  intro l
  induction l with
  | nil =>
    intro d0 d' h
    cases h
    simp
  | cons x xs ih =>
    intro d0 d' h
    unfold parseLines at h
    cases hs : scanLine d0 x with
    | none => rw [hs] at h; cases h
    | some d1 =>
      rw [hs] at h
      have hstep := scanLine_total_rows hs
      have hrest := ih d1 d' h
      by_cases hx : specCountedLine x
      · rw [List.filter_cons_of_pos (by simpa using hx)]
        rw [hrest, hstep, if_pos hx]
        simp only [List.length_cons]
        omega
      · rw [List.filter_cons_of_neg (by simpa using hx)]
        rw [hrest, hstep, if_neg hx]
        omega

theorem parseLines_sheets :
    ∀ (l : List (List Char)) (d0 d' : ParseData),
      parseLines d0 l = some d' →
      d'.sheets = List.foldl insertSet d0.sheets (l.filterMap sheetNameOfLine) := by
  intro l
  induction l with
  | nil =>
    intro d0 d' h
    cases h
    simp
  | cons x xs ih =>
    intro d0 d' h
    unfold parseLines at h
    cases hs : scanLine d0 x with
    | none => rw [hs] at h; cases h
    | some d1 =>
      rw [hs] at h
      have hstep := scanLine_sheets hs
      have hrest := ih d1 d' h
      cases hn : sheetNameOfLine x with
      | none =>
        rw [hn] at hstep
        rw [List.filterMap_cons_none hn, hrest, hstep]
        rfl
      | some n =>
        rw [hn] at hstep
        rw [List.filterMap_cons_some hn, hrest]
        simp only [List.foldl_cons]
        rw [hstep]
        rfl

theorem parseLines_columns :
    ∀ (l : List (List Char)) (d0 d' : ParseData),
      parseLines d0 l = some d' →
      d'.columns = List.foldl insertSet d0.columns (l.filterMap colNameOfLine) := by
  intro l
  induction l with
  | nil =>
    intro d0 d' h
    cases h
    simp
  | cons x xs ih =>
    intro d0 d' h
    unfold parseLines at h
    cases hs : scanLine d0 x with
    | none => rw [hs] at h; cases h
    | some d1 =>
      rw [hs] at h
      have hstep := scanLine_columns hs
      have hrest := ih d1 d' h
      cases hn : colNameOfLine x with
      | none =>
        rw [hn] at hstep
        rw [List.filterMap_cons_none hn, hrest, hstep]
        rfl
      | some n =>
        rw [hn] at hstep
        rw [List.filterMap_cons_some hn, hrest]
        simp only [List.foldl_cons]
        rw [hstep]
        rfl

theorem parseLines_tables :
    ∀ (l : List (List Char)) (d0 d' : ParseData),
      parseLines d0 l = some d' → d'.tables = d0.tables := by
  intro l
  induction l with
  | nil =>
    intro d0 d' h
    cases h
    rfl
  | cons x xs ih =>
    intro d0 d' h
    unfold parseLines at h
    cases hs : scanLine d0 x with
    | none => rw [hs] at h; cases h
    | some d1 =>
      rw [hs] at h
      rw [ih d1 d' h, scanLine_tables hs]

/-! ## Deduplication by first occurrence -/

theorem insertSet_nodup {l : List (List Char)} (h : l.Nodup) (x : List Char) :
    (insertSet l x).Nodup := by
  unfold insertSet
  split
  · exact h
  · rename_i hx
    simpa [List.nodup_append, h] using hx

theorem foldl_insertSet_nodup :
    ∀ (l : List (List Char)) (acc : List (List Char)),
      acc.Nodup → (List.foldl insertSet acc l).Nodup := by
  intro l
  induction l with
  | nil => intro acc h; exact h
  | cons x xs ih =>
    intro acc h
    exact ih (insertSet acc x) (insertSet_nodup h x)

theorem mem_insertSet (acc : List (List Char)) (n x : List Char) :
    x ∈ insertSet acc n ↔ x ∈ acc ∨ x = n := by
  unfold insertSet
  split
  · rename_i hn
    constructor
    · exact Or.inl
    · rintro (hx | rfl)
      · exact hx
      · exact hn
  · simp

theorem mem_foldl_insertSet :
    ∀ (names acc : List (List Char)) (x : List Char),
      x ∈ List.foldl insertSet acc names ↔ x ∈ acc ∨ x ∈ names := by
  intro names
  induction names with
  | nil => intro acc x; simp
  | cons n ns ih =>
    intro acc x
    simp only [List.foldl_cons]
    rw [ih (insertSet acc n) x, mem_insertSet]
    simp [List.mem_cons]
    tauto

/-- The first occurrence of each string in order, skipping those already in
`seen`: the claim-level reading of "de-duplicated, ordered by first
occurrence". -/
def dedupFirst (seen : List (List Char)) : List (List Char) → List (List Char)
  | [] => []
  | x :: xs => if x ∈ seen then dedupFirst seen xs else x :: dedupFirst (x :: seen) xs

theorem dedupFirst_congr_seen :
    ∀ (l s1 s2 : List (List Char)), (∀ a, a ∈ s1 ↔ a ∈ s2) →
      dedupFirst s1 l = dedupFirst s2 l := by
  intro l
  induction l with
  | nil => intro s1 s2 _; rfl
  | cons x xs ih =>
    intro s1 s2 hmem
    unfold dedupFirst
    by_cases hx : x ∈ s1
    · rw [if_pos hx, if_pos ((hmem x).mp hx), ih s1 s2 hmem]
    · rw [if_neg hx, if_neg (fun hx2 => hx ((hmem x).mpr hx2))]
      rw [ih (x :: s1) (x :: s2) (by intro a; simp [hmem a])]

theorem foldl_insertSet_eq_dedupFirst :
    ∀ (l acc : List (List Char)),
      List.foldl insertSet acc l = acc ++ dedupFirst acc l := by
  intro l
  induction l with
  | nil => intro acc; simp [dedupFirst]
  | cons x xs ih =>
    intro acc
    simp only [List.foldl_cons]
    unfold dedupFirst
    by_cases hx : x ∈ acc
    · rw [if_pos hx]
      have : insertSet acc x = acc := by unfold insertSet; rw [if_pos hx]
      rw [this, ih acc]
    · rw [if_neg hx]
      have : insertSet acc x = acc ++ [x] := by unfold insertSet; rw [if_neg hx]
      rw [this, ih (acc ++ [x])]
      rw [dedupFirst_congr_seen xs (acc ++ [x]) (x :: acc) (by intro a; simp; tauto)]
      simp

/-! ## Failure of the scanner on marker-with-no-token lines -/

theorem scanLine_none_of_no_token_sheet {line : List Char}
    (hc : pyStrip line ≠ [] ∧ ¬ listStartsWith eqMarker line)
    (hm : containsSub sheetMarker line = true)
    (hn : (pySplitWs (splitLastPiece sheetMarker line)).head? = none) :
    ∀ d, scanLine d line = none := by
  intro d
  unfold scanLine
  rw [if_pos hc]
  unfold sheetStep
  rw [if_pos hm, hn]

theorem scanLine_none_of_no_token_col {line : List Char}
    (hc : pyStrip line ≠ [] ∧ ¬ listStartsWith eqMarker line)
    (hm : containsSub colMarker line = true)
    (hn : (pySplitWs (splitLastPiece colMarker line)).head? = none) :
    ∀ d, scanLine d line = none := by
  intro d
  unfold scanLine
  rw [if_pos hc]
  cases hs : sheetStep { d with total_rows := d.total_rows + 1 } line with
  | none => rfl
  | some d2 =>
    show colStep d2 line = none
    unfold colStep
    rw [if_pos hm, hn]

theorem scanLine_none_of_trailing_marker {line : List Char}
    (h1 : pyStrip line ≠ []) (h2 : ¬ listStartsWith eqMarker line)
    (h3 : (containsSub sheetMarker line = true
            ∧ ∀ c ∈ splitLastPiece sheetMarker line, isPySpace c)
        ∨ (containsSub colMarker line = true
            ∧ ∀ c ∈ splitLastPiece colMarker line, isPySpace c)) :
    ∀ d, scanLine d line = none := by
  rcases h3 with ⟨hm, hws⟩ | ⟨hm, hws⟩
  · exact scanLine_none_of_no_token_sheet ⟨h1, h2⟩ hm
      (by rw [pySplitWs_nil_of_all_space _ hws]; rfl)
  · exact scanLine_none_of_no_token_col ⟨h1, h2⟩ hm
      (by rw [pySplitWs_nil_of_all_space _ hws]; rfl)

theorem parseLines_none {line : List Char} (hbad : ∀ d, scanLine d line = none) :
    ∀ (l : List (List Char)), line ∈ l → ∀ d0, parseLines d0 l = none := by
  intro l
  induction l with
  | nil => intro h; cases h
  | cons x xs ih =>
    intro hmem d0
    unfold parseLines
    rcases List.mem_cons.mp hmem with rfl | hmem2
    · rw [hbad d0]
    · cases hs : scanLine d0 x with
      | none => rfl
      | some d1 => exact ih hmem2 d1

/-! ## Claims -/

/-- C1: for every input string on which the line scanner returns,
`total_rows` equals the number of lines — obtained by stripping the whole
input and splitting on newline — that contain a non-whitespace character
and do not start with the separator marker `===`. -/
theorem C1_total_rows_counts_lines (output : List Char) (d : ParseData)
    (h : parse_eparse_output output = some d) :
    d.total_rows = ((splitNl (pyStrip output)).filter specCountedLine).length := by
  have hr := parseLines_total_rows _ _ _ h
  simpa [initData] using hr

/-- Witness for C1 at the input `"x sheet:A\ny sheet:B\nz sheet:A"`:
the scanner returns, and its row count is the number of counted lines. -/
theorem C1_total_rows_counts_lines_witness :
    parse_eparse_output ("x sheet:A\ny sheet:B\nz sheet:A".toList)
      = some ⟨[], ["A".toList, "B".toList], [], 3⟩
    ∧ (⟨[], ["A".toList, "B".toList], [], 3⟩ : ParseData).total_rows
      = ((splitNl (pyStrip ("x sheet:A\ny sheet:B\nz sheet:A".toList))).filter
          specCountedLine).length :=
  ⟨by decide, C1_total_rows_counts_lines _ _ (by decide)⟩

/-- C2, counterexample to the ordering clause: at the claim's own example
input `"x sheet:A\ny sheet:B\nz sheet:A"` the scanner's sheet set has the
members `A` and `B`, and `[B, A]` is a possible result of the final
`list(...)` conversion (CPython promises no iteration order for a set), yet
`[B, A]` is not the de-duplicated first-occurrence-ordered list `[A, B]` —
so the program does not guarantee the claimed ordering. -/
theorem C2_first_occurrence_counterexample :
    parse_eparse_output ("x sheet:A\ny sheet:B\nz sheet:A".toList)
      = some ⟨[], ["A".toList, "B".toList], [], 3⟩
    ∧ pyListOfSet (⟨[], ["A".toList, "B".toList], [], 3⟩ : ParseData).sheets
        ["B".toList, "A".toList]
    ∧ ["B".toList, "A".toList]
      ≠ dedupFirst []
          ((splitNl (pyStrip ("x sheet:A\ny sheet:B\nz sheet:A".toList))).filterMap
            sheetNameOfLine) :=
  ⟨by decide, List.Perm.swap ("A".toList) ("B".toList) [], by decide⟩

/-- C2 as amended: for every input string on which the line scanner
returns, every possible value of the returned sheets list (any enumeration
of the sheet set, since CPython's set iteration order is unspecified) is a
duplicate-free list containing exactly the sheet names extracted from
counted lines containing `sheet:`, membership by string equality — no
ordering is guaranteed. -/
theorem C2_sheets_membership (output : List Char) (d : ParseData)
    (h : parse_eparse_output output = some d)
    (l : List (List Char)) (hl : pyListOfSet d.sheets l) :
    l.Nodup
    ∧ ∀ x, x ∈ l ↔ x ∈ (splitNl (pyStrip output)).filterMap sheetNameOfLine := by
  have hl' : List.Perm l d.sheets := hl
  have hs := parseLines_sheets _ _ _ h
  have hnd : d.sheets.Nodup := by
    rw [hs]
    exact foldl_insertSet_nodup _ _ (by simp [initData])
  have hmem : ∀ x, x ∈ d.sheets
      ↔ x ∈ (splitNl (pyStrip output)).filterMap sheetNameOfLine := by
    intro x
    rw [hs, mem_foldl_insertSet]
    simp [initData]
  exact ⟨hl'.nodup_iff.mpr hnd, fun x => (hl'.mem_iff).trans (hmem x)⟩

/-- Witness for the amended C2 at the claim's example input
`"x sheet:A\ny sheet:B\nz sheet:A"`: the enumeration `[A, B]` of the sheet
set is duplicate-free and holds exactly the extracted names `A` and `B`. -/
theorem C2_sheets_membership_witness :
    parse_eparse_output ("x sheet:A\ny sheet:B\nz sheet:A".toList)
      = some ⟨[], ["A".toList, "B".toList], [], 3⟩
    ∧ pyListOfSet (⟨[], ["A".toList, "B".toList], [], 3⟩ : ParseData).sheets
        ["A".toList, "B".toList]
    ∧ (["A".toList, "B".toList].Nodup
      ∧ ∀ x, x ∈ ["A".toList, "B".toList]
          ↔ x ∈ (splitNl (pyStrip ("x sheet:A\ny sheet:B\nz sheet:A".toList))).filterMap
                sheetNameOfLine) :=
  ⟨by decide, by exact List.Perm.refl _,
    C2_sheets_membership ("x sheet:A\ny sheet:B\nz sheet:A".toList)
      ⟨[], ["A".toList, "B".toList], [], 3⟩ (by decide) _
      (by exact List.Perm.refl _)⟩

/-- C3: `format_summary` is a pure, deterministic function of its three
inputs — the row count, the sheet list, and the column list: two data
dictionaries agreeing on those three produce equal summary text. -/
theorem C3_format_summary_deterministic (d1 d2 : ParseData)
    (h1 : d1.total_rows = d2.total_rows) (h2 : d1.sheets = d2.sheets)
    (h3 : d1.columns = d2.columns) :
    format_summary d1 = format_summary d2 := by
  unfold format_summary
  rw [h1, h2, h3]

/-- Witness for C3: two dictionaries differing only in `tables` agree on
all three inputs, hence on the summary text. -/
theorem C3_format_summary_deterministic_witness :
    format_summary ⟨["t".toList], [], [], 0⟩ = format_summary ⟨[], [], [], 0⟩ :=
  C3_format_summary_deterministic _ _ rfl rfl rfl

/-- C4: for every extraction result with an empty sheets list, the second
figure is the annotated "No sheet data available" placeholder, and with an
empty columns list the third figure is the "No column data available"
placeholder; `create_visualizations` is total, so no exception escapes. -/
theorem C4_placeholder_on_empty (d : ParseData) :
    (d.sheets = [] →
      (create_visualizations d)[1]? = some (Chart.note "Sheets Found" "No sheet data available"))
    ∧ (d.columns = [] →
      (create_visualizations d)[2]? = some (Chart.note "Columns Found" "No column data available")) := by
  constructor
  · intro h
    simp [create_visualizations, h]
  · intro h
    simp [create_visualizations, h]

/-- Witness for C4 at the empty data dictionary. -/
theorem C4_placeholder_on_empty_witness :
    (create_visualizations initData)[1]? = some (Chart.note "Sheets Found" "No sheet data available")
    ∧ (create_visualizations initData)[2]? = some (Chart.note "Columns Found" "No column data available") :=
  ⟨(C4_placeholder_on_empty initData).1 rfl, (C4_placeholder_on_empty initData).2 rfl⟩

/-- C5: when the extraction invocation exits non-zero, `extract_from_excel`
returns the `error`-keyed dictionary whose message contains that process's
stderr; when the query invocation exits non-zero,
`_extract_from_database` returns (not raises) the `error`-keyed dictionary
whose message contains that process's stderr. -/
theorem C5_nonzero_exit_error_contains_stderr (pr qr : ProcResult) (b : Bool)
    (h1 : pr.returncode ≠ 0) (h2 : qr.returncode ≠ 0) :
    (extract_from_excel pr b qr
        = .errorDict ("eparse error: ".toList ++ pr.stderr)
      ∧ containsSub pr.stderr ("eparse error: ".toList ++ pr.stderr) = true)
    ∧ (extract_from_database qr
        = .ok (.errorDict ("Database query error: ".toList ++ qr.stderr))
      ∧ containsSub qr.stderr ("Database query error: ".toList ++ qr.stderr) = true) := by
  refine ⟨⟨?_, containsSub_append_self _ _⟩, ⟨?_, containsSub_append_self _ _⟩⟩
  · unfold extract_from_excel subprocessRunChecked
    rw [if_neg h1]
  · unfold extract_from_database subprocessRunChecked
    rw [if_neg h2]

/-- Witness for C5 at exit codes 1 and 2 with concrete stderr texts. -/
theorem C5_nonzero_exit_error_contains_stderr_witness :
    ((⟨1, [], "boom".toList⟩ : ProcResult).returncode ≠ 0)
    ∧ ((⟨2, [], "qfail".toList⟩ : ProcResult).returncode ≠ 0)
    ∧ ((extract_from_excel ⟨1, [], "boom".toList⟩ false ⟨2, [], "qfail".toList⟩
          = .errorDict ("eparse error: ".toList ++ "boom".toList)
        ∧ containsSub "boom".toList ("eparse error: ".toList ++ "boom".toList) = true)
      ∧ (extract_from_database ⟨2, [], "qfail".toList⟩
          = .ok (.errorDict ("Database query error: ".toList ++ "qfail".toList))
        ∧ containsSub "qfail".toList ("Database query error: ".toList ++ "qfail".toList) = true)) :=
  ⟨by decide, by decide,
    C5_nonzero_exit_error_contains_stderr ⟨1, [], "boom".toList⟩ ⟨2, [], "qfail".toList⟩ false
      (by decide) (by decide)⟩

/-- C6: when the pipeline raises an exception that is not an
external-process failure — both invocations exit zero but the scanner's
`IndexError` fires — it is caught, and `process_excel_file` returns the
user-visible error text carrying the exception's message
(`list index out of range`) instead of propagating; being a total function,
it never propagates an exception. -/
theorem C6_unexpected_exception_reported (f : String) (env : Env)
    (h1 : env.parseRes.returncode = 0) (h2 : env.dbFilesEmpty = false)
    (h3 : env.queryRes.returncode = 0)
    (h4 : parse_eparse_output env.queryRes.stdout = none) :
    process_excel_file (some f) env
      = ⟨"Error: General error: list index out of range", none, none, none, none⟩
    ∧ containsSub (strOfExn PyExn.indexError)
        "Error: General error: list index out of range".toList = true := by
  have hex : extract_from_excel env.parseRes env.dbFilesEmpty env.queryRes
      = .errorDict ("General error: ".toList ++ strOfExn PyExn.indexError) := by
    simp [extract_from_excel, extract_from_database, subprocessRunChecked, h1, h2, h3, h4]
  refine ⟨?_, by decide⟩
  simp only [process_excel_file, hex]
  decide

/-- Witness for C6: zero exit codes, a database file present, and query
stdout `"x sheet:"` on which the scanner raises. -/
theorem C6_unexpected_exception_reported_witness :
    ((⟨⟨0, [], []⟩, false, ⟨0, "x sheet:".toList, []⟩⟩ : Env).parseRes.returncode = 0)
    ∧ ((⟨⟨0, [], []⟩, false, ⟨0, "x sheet:".toList, []⟩⟩ : Env).dbFilesEmpty = false)
    ∧ ((⟨⟨0, [], []⟩, false, ⟨0, "x sheet:".toList, []⟩⟩ : Env).queryRes.returncode = 0)
    ∧ parse_eparse_output
        (⟨⟨0, [], []⟩, false, ⟨0, "x sheet:".toList, []⟩⟩ : Env).queryRes.stdout = none
    ∧ (process_excel_file (some "f.xlsx") ⟨⟨0, [], []⟩, false, ⟨0, "x sheet:".toList, []⟩⟩
        = ⟨"Error: General error: list index out of range", none, none, none, none⟩
      ∧ containsSub (strOfExn PyExn.indexError)
          "Error: General error: list index out of range".toList = true) :=
  ⟨by decide, by decide, by decide, by decide,
    C6_unexpected_exception_reported "f.xlsx" ⟨⟨0, [], []⟩, false, ⟨0, "x sheet:".toList, []⟩⟩
      rfl rfl rfl (by decide)⟩

/-- C7: for every input on which the scanner returns, the data-model
invariants hold: the row count is non-negative and the sheets and columns
lists contain no duplicate strings (membership by string equality). -/
theorem C7_data_model_invariants (output : List Char) (d : ParseData)
    (h : parse_eparse_output output = some d) :
    0 ≤ d.total_rows ∧ d.sheets.Nodup ∧ d.columns.Nodup := by
  refine ⟨Nat.zero_le _, ?_, ?_⟩
  · rw [parseLines_sheets _ _ _ h]
    exact foldl_insertSet_nodup _ _ (by simp [initData])
  · rw [parseLines_columns _ _ _ h]
    exact foldl_insertSet_nodup _ _ (by simp [initData])

/-- Witness for C7 at an input with a repeated sheet name and a column. -/
theorem C7_data_model_invariants_witness :
    parse_eparse_output ("a sheet:S c_header:H\nb sheet:S".toList)
      = some ⟨[], ["S".toList], ["H".toList], 2⟩
    ∧ (0 ≤ (⟨[], ["S".toList], ["H".toList], 2⟩ : ParseData).total_rows
      ∧ (⟨[], ["S".toList], ["H".toList], 2⟩ : ParseData).sheets.Nodup
      ∧ (⟨[], ["S".toList], ["H".toList], 2⟩ : ParseData).columns.Nodup) :=
  ⟨by decide, C7_data_model_invariants ("a sheet:S c_header:H\nb sheet:S".toList) _ (by decide)⟩

/-- C8: on a counted line the loop body raises the row counter by one,
leaves `tables` untouched, adds a name to the sheets set if and only if the
line contains the substring `sheet:`, and adds a name to the columns set if
and only if the line contains the substring `c_header:`; in both cases the
name is the first whitespace-delimited token after the marker's last
occurrence. -/
theorem C8_marker_scan (d d' : ParseData) (line : List Char)
    (h1 : pyStrip line ≠ []) (h2 : ¬ listStartsWith eqMarker line)
    (h : scanLine d line = some d') :
    d'.total_rows = d.total_rows + 1
    ∧ d'.tables = d.tables
    ∧ (containsSub sheetMarker line = true →
        ∃ n, (pySplitWs (splitLastPiece sheetMarker line)).head? = some n
          ∧ d'.sheets = insertSet d.sheets n)
    ∧ (containsSub sheetMarker line = false → d'.sheets = d.sheets)
    ∧ (containsSub colMarker line = true →
        ∃ n, (pySplitWs (splitLastPiece colMarker line)).head? = some n
          ∧ d'.columns = insertSet d.columns n)
    ∧ (containsSub colMarker line = false → d'.columns = d.columns) := by
  have hc : pyStrip line ≠ [] ∧ ¬ listStartsWith eqMarker line := ⟨h1, h2⟩
  refine ⟨?_, scanLine_tables h, ?_, ?_, ?_, ?_⟩
  · have ht := scanLine_total_rows h
    rw [if_pos ((specCountedLine_iff line).mpr hc)] at ht
    exact ht
  · intro hm
    have hsh := scanLine_sheets h
    unfold sheetNameOfLine at hsh
    rw [if_pos ⟨hc, hm⟩] at hsh
    cases hn : (pySplitWs (splitLastPiece sheetMarker line)).head? with
    | none =>
      have hnone := scanLine_none_of_no_token_sheet hc hm hn d
      rw [hnone] at h
      exact Option.noConfusion h
    | some n =>
      rw [hn] at hsh
      exact ⟨n, rfl, by simpa [Option.elim] using hsh⟩
  · intro hm
    have hsh := scanLine_sheets h
    unfold sheetNameOfLine at hsh
    rw [if_neg (fun hx => absurd hx.2 (by simp [hm]))] at hsh
    simpa [Option.elim] using hsh
  · intro hm
    have hco := scanLine_columns h
    unfold colNameOfLine at hco
    rw [if_pos ⟨hc, hm⟩] at hco
    cases hn : (pySplitWs (splitLastPiece colMarker line)).head? with
    | none =>
      have hnone := scanLine_none_of_no_token_col hc hm hn d
      rw [hnone] at h
      exact Option.noConfusion h
    | some n =>
      rw [hn] at hco
      exact ⟨n, rfl, by simpa [Option.elim] using hco⟩
  · intro hm
    have hco := scanLine_columns h
    unfold colNameOfLine at hco
    rw [if_neg (fun hx => absurd hx.2 (by simp [hm]))] at hco
    simpa [Option.elim] using hco

/-- Witness for C8 on the counted line `"r sheet:S1 y c_header:H1 z"`. -/
theorem C8_marker_scan_witness :
    (pyStrip "r sheet:S1 y c_header:H1 z".toList ≠ [])
    ∧ (¬ listStartsWith eqMarker "r sheet:S1 y c_header:H1 z".toList)
    ∧ scanLine initData "r sheet:S1 y c_header:H1 z".toList
        = some ⟨[], ["S1".toList], ["H1".toList], 1⟩
    ∧ ((⟨[], ["S1".toList], ["H1".toList], 1⟩ : ParseData).total_rows = initData.total_rows + 1
      ∧ (⟨[], ["S1".toList], ["H1".toList], 1⟩ : ParseData).tables = initData.tables
      ∧ (containsSub sheetMarker "r sheet:S1 y c_header:H1 z".toList = true →
          ∃ n, (pySplitWs (splitLastPiece sheetMarker "r sheet:S1 y c_header:H1 z".toList)).head?
                = some n
            ∧ (⟨[], ["S1".toList], ["H1".toList], 1⟩ : ParseData).sheets
                = insertSet initData.sheets n)
      ∧ (containsSub sheetMarker "r sheet:S1 y c_header:H1 z".toList = false →
          (⟨[], ["S1".toList], ["H1".toList], 1⟩ : ParseData).sheets = initData.sheets)
      ∧ (containsSub colMarker "r sheet:S1 y c_header:H1 z".toList = true →
          ∃ n, (pySplitWs (splitLastPiece colMarker "r sheet:S1 y c_header:H1 z".toList)).head?
                = some n
            ∧ (⟨[], ["S1".toList], ["H1".toList], 1⟩ : ParseData).columns
                = insertSet initData.columns n)
      ∧ (containsSub colMarker "r sheet:S1 y c_header:H1 z".toList = false →
          (⟨[], ["S1".toList], ["H1".toList], 1⟩ : ParseData).columns = initData.columns)) :=
  ⟨by decide, by decide, by decide,
    C8_marker_scan initData ⟨[], ["S1".toList], ["H1".toList], 1⟩
      "r sheet:S1 y c_header:H1 z".toList (by decide) (by decide) (by decide)⟩

/-- C9: the scanner is not total: any input with a counted line whose last
`sheet:` (or `c_header:`) occurrence is followed only by whitespace or the
end of the line makes `_parse_eparse_output` raise (return `none`) instead
of returning a result. -/
theorem C9_scanner_not_total (output line : List Char)
    (hmem : line ∈ splitNl (pyStrip output))
    (h1 : pyStrip line ≠ []) (h2 : ¬ listStartsWith eqMarker line)
    (h3 : (containsSub sheetMarker line = true
            ∧ ∀ c ∈ splitLastPiece sheetMarker line, isPySpace c)
        ∨ (containsSub colMarker line = true
            ∧ ∀ c ∈ splitLastPiece colMarker line, isPySpace c)) :
    parse_eparse_output output = none :=
  parseLines_none (scanLine_none_of_trailing_marker h1 h2 h3) _ hmem initData

/-- Witness for C9: on the input `"x sheet:"` (a counted line whose last
`sheet:` is followed by end of line) the scanner raises. -/
theorem C9_scanner_not_total_witness :
    ("x sheet:".toList ∈ splitNl (pyStrip "x sheet:".toList))
    ∧ (pyStrip "x sheet:".toList ≠ [])
    ∧ (¬ listStartsWith eqMarker "x sheet:".toList)
    ∧ (containsSub sheetMarker "x sheet:".toList = true
        ∧ ∀ c ∈ splitLastPiece sheetMarker "x sheet:".toList, isPySpace c)
    ∧ parse_eparse_output ("x sheet:".toList) = none :=
  ⟨by decide, by decide, by decide, ⟨by decide, by decide⟩,
    C9_scanner_not_total ("x sheet:".toList) ("x sheet:".toList)
      (by decide) (by decide) (by decide) (Or.inl ⟨by decide, by decide⟩)⟩

/-- C10: with no uploaded file, `process_excel_file` returns the fixed
message `Please upload an Excel file.` and `None` for each of the four
chart outputs, for every environment — in particular the result does not
depend on the extractor construction or the external invocations, which
are never reached. -/
theorem C10_no_file_fixed_message (env : Env) :
    process_excel_file none env
      = ⟨"Please upload an Excel file.", none, none, none, none⟩ :=
  rfl
